import Mathlib

/-!
Verification of the owned wide-string buffer family (`U16String` / `U32String`)
from `src/ustring.rs`, against its natural-language specification.

The buffer is embedded as a list of code units (`Nat`, machine bounds stated as
hypotheses where they matter) together with an explicit capacity, mirroring a
Rust `Vec`.  Operations that can panic are embedded as `Except`-valued
functions whose `error` payload is the buffer state at the moment of the
panic, so that "aborts with no mutation" is expressible; `Option` is used
where no buffer state exists yet (`from_ptr`).
-/

/-- Model of `Vec<u16>` / `Vec<u32>`: the stored code units plus the
allocation capacity. -/
structure WVec where
  data : List Nat
  cap : Nat
deriving Repr, DecidableEq

namespace WVec

/-- Model of `Vec::pop` (documented std semantics): removes and returns the
last element; capacity unchanged. -/
def pop (s : WVec) : Option Nat × WVec :=
  match s.data.getLast? with
  | none => (none, s)
  | some a => (some a, ⟨s.data.dropLast, s.cap⟩)

/-- Model of `Vec::extend_from_slice` (documented std semantics): appends the
slice; capacity grows at least to the new length. -/
def extend_from_slice (s : WVec) (t : List Nat) : WVec :=
  ⟨s.data ++ t, max s.cap (s.data.length + t.length)⟩

/-- Model of `Vec::reserve` (documented std contract): after the call the
capacity is at least `len + additional`. -/
def reserve (s : WVec) (additional : Nat) : WVec :=
  ⟨s.data, max s.cap (s.data.length + additional)⟩

/-- Model of `Vec::shrink_to_fit` as pinned down by this crate's own doctest
(`assert_eq!(3, s.capacity())` after shrinking a length-3 string): capacity
collapses to the length. -/
def shrink_to_fit (s : WVec) : WVec :=
  ⟨s.data, s.data.length⟩

/-- Model of `Vec::resize` (documented std semantics) for the growing case
used here: appends `fill` up to `newLen`, truncates if `newLen` is smaller. -/
def resize (s : WVec) (newLen : Nat) (fill : Nat) : WVec :=
  if newLen ≤ s.data.length then ⟨s.data.take newLen, s.cap⟩
  else ⟨s.data ++ List.replicate (newLen - s.data.length) fill, max s.cap newLen⟩

/-- Model of `slice::copy_within(srcStart..srcEnd, dest)` (documented std
semantics): `none` models the panic when a range exceeds the slice. -/
def copy_within (s : WVec) (srcStart srcEnd dest : Nat) : Option WVec :=
  if srcStart ≤ srcEnd ∧ srcEnd ≤ s.data.length ∧
      dest + (srcEnd - srcStart) ≤ s.data.length then
    some ⟨s.data.take dest ++ ((s.data.drop srcStart).take (srcEnd - srcStart))
            ++ s.data.drop (dest + (srcEnd - srcStart)), s.cap⟩
  else none

/-- Model of `slice[a..b].copy_from_slice(t)` (documented std semantics):
`none` models the panic when the two lengths differ or the range is bad. -/
def copy_from_slice_range (s : WVec) (a b : Nat) (t : List Nat) : Option WVec :=
  if a ≤ b ∧ b ≤ s.data.length ∧ b - a = t.length then
    some ⟨s.data.take a ++ t ++ s.data.drop b, s.cap⟩
  else none

/-- Model of `Vec::drain(a..b)` (documented std semantics), keeping only the
removed-range effect; `none` models the panic on a bad range. -/
def drain (s : WVec) (a b : Nat) : Option WVec :=
  if a ≤ b ∧ b ≤ s.data.length then
    some ⟨s.data.take a ++ s.data.drop b, s.cap⟩
  else none

/-- Model of `Vec::remove(idx)` (documented std semantics): panics iff
`idx ≥ len`; otherwise removes and returns the element at `idx`. -/
def remove (s : WVec) (idx : Nat) : Except WVec (Nat × WVec) :=
  match s.data.get? idx with
  | none => .error s
  | some a => .ok (a, ⟨s.data.take idx ++ s.data.drop (idx + 1), s.cap⟩)

/-- Model of `Vec::insert(idx, a)` (documented std semantics): panics iff
`idx > len`; otherwise splices `a` in at `idx`. -/
def insert (s : WVec) (idx : Nat) (a : Nat) : Except WVec WVec :=
  if idx ≤ s.data.length then
    .ok ⟨s.data.take idx ++ a :: s.data.drop idx, max s.cap (s.data.length + 1)⟩
  else .error s

/-- Model of `Vec::split_off(at)` (documented std semantics): panics iff
`at > len`; otherwise the receiver keeps `[0, at)` with its capacity
unchanged and a new vector holding `[at, len)` is returned. -/
def split_off (s : WVec) (i : Nat) : Except WVec (WVec × WVec) :=
  if i ≤ s.data.length then
    .ok (⟨s.data.take i, s.cap⟩, ⟨s.data.drop i, s.data.length - i⟩)
  else .error s

end WVec

/-- Modelled from the spec: the crate's `is_utf16_surrogate` helper lives in
`lib.rs`, which is not included under `src/`; the spec fixes the surrogate
area as the 16-bit units `0xD800..=0xDFFF`. -/
def is_utf16_surrogate (u : Nat) : Bool :=
  decide (0xD800 ≤ u ∧ u ≤ 0xDFFF)

/-- Modelled from the spec: the crate's `is_utf16_high_surrogate` helper
(`lib.rs`, not under `src/`); high (leading) surrogates are
`0xD800..=0xDBFF`. -/
def is_utf16_high_surrogate (u : Nat) : Bool :=
  decide (0xD800 ≤ u ∧ u ≤ 0xDBFF)

/-- Modelled from the spec: the crate's `is_utf16_low_surrogate` helper
(`lib.rs`, not under `src/`); low (trailing) surrogates are
`0xDC00..=0xDFFF`. -/
def is_utf16_low_surrogate (u : Nat) : Bool :=
  decide (0xDC00 ≤ u ∧ u ≤ 0xDFFF)

/-- Model of the first item of Rust's `char::decode_utf16` iterator
(documented std semantics): a non-surrogate unit decodes to itself; a high
surrogate validly followed by a low surrogate decodes to the combined scalar
by the standard formula; any other surrogate yields the unpaired-surrogate
error carrying the raw unit; `none` when the input is empty. -/
def decode_utf16_first : List Nat → Option (Except Nat Nat)
  | [] => none
  | u :: rest =>
    if is_utf16_surrogate u = false then some (Except.ok u)
    else if is_utf16_high_surrogate u then
      match rest with
      | [] => some (Except.error u)
      | v :: _ =>
        if is_utf16_low_surrogate v then
          some (Except.ok (0x10000 + (u - 0xD800) * 0x400 + (v - 0xDC00)))
        else some (Except.error u)
    else some (Except.error u)

/-- Model of Rust's `char::len_utf16` (documented std semantics): one unit
for scalars below `0x10000`, two otherwise. -/
def len_utf16 (c : Nat) : Nat :=
  if c < 0x10000 then 1 else 2

/-- Model of Rust's `char::encode_utf16` (documented std semantics): one unit
for scalars below `0x10000`, otherwise the standard surrogate pair. -/
def encode_utf16 (c : Nat) : List Nat :=
  if c < 0x10000 then [c]
  else [0xD800 + (c - 0x10000) / 0x400, 0xDC00 + (c - 0x10000) % 0x400]

/-- A Unicode scalar value: a code point outside the surrogate area, the
domain of Rust's `char`. -/
def IsUnicodeScalar (c : Nat) : Prop :=
  c < 0x110000 ∧ ¬(0xD800 ≤ c ∧ c ≤ 0xDFFF)

instance (c : Nat) : Decidable (IsUnicodeScalar c) := by
  unfold IsUnicodeScalar; infer_instance

/-- Model of a raw wide pointer for `from_ptr`: either null or valid for
reads of the listed code units. -/
inductive WidePtr where
  | null : WidePtr
  | valid : List Nat → WidePtr
deriving Repr, DecidableEq

/-- Embedding of the macro-generated `from_ptr` (`src/ustring.rs:141-148`):
`len == 0` short-circuits to an empty string before the null check; otherwise
`assert!(!p.is_null())`, then the `len` units are copied into a fresh buffer.
Reading past the valid region is undefined behaviour and modelled as `none`. -/
def from_ptr (p : WidePtr) (len : Nat) : Option WVec :=
  if len = 0 then some ⟨[], 0⟩
  else
    match p with
    | WidePtr.null => none
    | WidePtr.valid mem =>
      if len ≤ mem.length then some ⟨mem.take len, len⟩ else none

/-- Embedding of the macro-generated `insert_ustr` (`src/ustring.rs:362-368`),
identical for both widths: assert `idx ≤ len`, `resize_with` to
`len + string.len()` filling with the default unit `0`, then
`copy_within(idx.., idx + string.len())`, then
`inner[idx..].copy_from_slice(string)`.  The `error` payload is the buffer
state at the panic. -/
def insert_ustr (s : WVec) (idx : Nat) (string : List Nat) : Except WVec WVec :=
  if idx ≤ s.data.length then
    let r := s.resize (s.data.length + string.length) 0
    match r.copy_within idx r.data.length (idx + string.length) with
    | none => .error r
    | some r2 =>
      match r2.copy_from_slice_range idx r2.data.length string with
      | none => .error r2
      | some r3 => .ok r3
  else .error s

/-- Embedding of the macro-generated `split_off` (`src/ustring.rs:381-383`):
`Self::from_vec(self.inner.split_off(at))`. -/
def split_off (s : WVec) (i : Nat) : Except WVec (WVec × WVec) :=
  s.split_off i

/-- Embedding of the macro-generated `reserve` (`src/ustring.rs:178-180`):
delegates to `Vec::reserve`. -/
def reserve (s : WVec) (additional : Nat) : WVec :=
  s.reserve additional

/-- Embedding of the macro-generated `shrink_to_fit`
(`src/ustring.rs:317-319`): delegates to `Vec::shrink_to_fit`. -/
def shrink_to_fit (s : WVec) : WVec :=
  s.shrink_to_fit

namespace U16String

/-- Embedding of `U16String::push_char` (`src/ustring.rs:1009-1012`): extends
the buffer with the scalar's 1- or 2-unit UTF-16 encoding. -/
def push_char (s : WVec) (c : Nat) : WVec :=
  s.extend_from_slice (encode_utf16 c)

/-- Embedding of `U16String::pop` (`src/ustring.rs:1018-1042`), line by line:
pop the trailing unit; if it is a surrogate and a low one with the remaining
buffer non-empty, the source reads `self.inner[self.len()]` — an index one
past the end of the already-shrunk vector, modelled by
`s1.data.get? s1.data.length` with `none` propagating as the panic; on a
valid high surrogate it pops again and decodes the pair. -/
def pop (s : WVec) : Except WVec (Option Nat × WVec) :=
  match WVec.pop s with
  | (none, _) => .ok (none, s)
  | (some low, s1) =>
    if is_utf16_surrogate low then
      if !is_utf16_low_surrogate low || s1.data.isEmpty then
        .ok (some low, s1)
      else
        match s1.data.get? s1.data.length with
        | none => .error s1
        | some high =>
          if is_utf16_high_surrogate high then
            match WVec.pop s1 with
            | (_, s2) =>
              match decode_utf16_first [high, low] with
              | some (Except.ok c) => .ok (some c, s2)
              | _ => .error s2
          else .ok (some low, s1)
    else .ok (some low, s1)

/-- Embedding of `U16String::remove` (`src/ustring.rs:1052-1061`): slice from
`idx` (panics iff `idx > len`), decode the first scalar (`.unwrap()` panics
when the slice is empty, i.e. `idx == len`), take `len_utf16` units on
success and one raw unit on decode failure, then drain the consumed range. -/
def remove (s : WVec) (idx : Nat) : Except WVec (Nat × WVec) :=
  if idx ≤ s.data.length then
    match decode_utf16_first (s.data.drop idx) with
    | none => .error s
    | some r =>
      match r with
      | Except.ok c =>
        match s.drain idx (idx + len_utf16 c) with
        | some s2 => .ok (c, s2)
        | none => .error s
      | Except.error _ =>
        match s.data.get? idx with
        | none => .error s
        | some u =>
          match s.drain idx (idx + 1) with
          | some s2 => .ok (u, s2)
          | none => .error s
  else .error s

/-- Embedding of `U16String::insert` (`src/ustring.rs:1070-1077`): assert
`idx ≤ len`, encode the scalar, `resize` to `len + slice.len()` with fill
`0`, then `copy_within(idx.., idx + slice.len())`, then
`inner[idx..].copy_from_slice(slice)`.  The `error` payload is the buffer
state at the panic. -/
def insert (s : WVec) (idx : Nat) (c : Nat) : Except WVec WVec :=
  if idx ≤ s.data.length then
    let sl := encode_utf16 c
    let r := s.resize (s.data.length + sl.length) 0
    match r.copy_within idx r.data.length (idx + sl.length) with
    | none => .error r
    | some r2 =>
      match r2.copy_from_slice_range idx r2.data.length sl with
      | none => .error r2
      | some r3 => .ok r3
  else .error s

end U16String

namespace U32String

/-- Embedding of `U32String::push_char` (`src/ustring.rs:1223-1225`): pushes
the scalar value as one 32-bit unit. -/
def push_char (s : WVec) (c : Nat) : WVec :=
  s.extend_from_slice [c]

/-- Embedding of `U32String::pop` (`src/ustring.rs:1231-1233`): plain
`Vec::pop`. -/
def pop (s : WVec) : Option Nat × WVec :=
  WVec.pop s

/-- Embedding of `U32String::remove` (`src/ustring.rs:1243-1245`): plain
`Vec::remove`, fatal iff `idx ≥ len`. -/
def remove (s : WVec) (idx : Nat) : Except WVec (Nat × WVec) :=
  s.remove idx

/-- Embedding of `U32String::insert` (`src/ustring.rs:1255-1257`): plain
`Vec::insert`, fatal iff `idx > len`. -/
def insert (s : WVec) (idx : Nat) (c : Nat) : Except WVec WVec :=
  s.insert idx c

end U32String

/-! ## Helper lemmas -/

theorem get?_some_lt {l : List Nat} {n a : Nat} (h : l.get? n = some a) :
    n < l.length := by
  by_contra hc
  push_neg at hc
  rw [List.get?_eq_none.mpr hc] at h
  cases h

theorem drop_eq_cons_of_get? {l : List Nat} {n a : Nat} (h : l.get? n = some a) :
    l.drop n = a :: l.drop (n + 1) := by
  induction l generalizing n with
  | nil => cases h
  | cons x xs ih =>
    cases n with
    | zero =>
      rw [List.get?_cons_zero] at h
      cases h
      rfl
    | succ m =>
      rw [List.get?_cons_succ] at h
      simpa using ih h

theorem surrogate_of_low {u : Nat} (h : is_utf16_low_surrogate u = true) :
    is_utf16_surrogate u = true := by
  simp only [is_utf16_low_surrogate, is_utf16_surrogate, decide_eq_true_eq] at *
  omega

theorem surrogate_of_high {u : Nat} (h : is_utf16_high_surrogate u = true) :
    is_utf16_surrogate u = true := by
  simp only [is_utf16_high_surrogate, is_utf16_surrogate, decide_eq_true_eq] at *
  omega

theorem u16_remove_oob (s : WVec) (idx : Nat) (h : s.data.length ≤ idx) :
    U16String.remove s idx = Except.error s := by
  by_cases hle : idx ≤ s.data.length
  · simp [U16String.remove, hle, List.drop_eq_nil_of_le h, decode_utf16_first]
  · simp [U16String.remove, hle]

/-! ## Claim theorems -/

/-- C1: the claim says push_char(c) followed by pop() returns c and restores
the buffer, and in particular pushing U+1F600 onto an empty 16-bit buffer
adds a surrogate pair which pop() then returns combined as 0x1F600.  The
code violates this: pushing U+1F600 does add the surrogate pair
`[0xD83D, 0xDE00]`, but `pop` then reads `self.inner[self.len()]` — one past
the end of the vector it has just shrunk — and panics (here: the panic state
`error` with the buffer holding the lone high surrogate) instead of
returning 0x1F600. -/
theorem c1_push_char_pop_bug :
    U16String.push_char ⟨[], 0⟩ 0x1F600 = ⟨[0xD83D, 0xDE00], 2⟩ ∧
    U16String.pop ⟨[0xD83D, 0xDE00], 2⟩ = Except.error ⟨[0xD83D], 2⟩ :=
  ⟨rfl, rfl⟩

/-- C2: the claim says that popping a trailing low surrogate whose preceding
unit is not a valid high surrogate removes one unit and returns the low
surrogate's raw value.  The code violates this whenever the buffer is
non-empty after the pop: on `[0x41, 0xDC00]` it reads
`self.inner[self.len()]`, one past the end of the shrunk vector, and panics
instead of returning 0xDC00. -/
theorem c2_pop_unpaired_low_bug :
    U16String.pop ⟨[0x41, 0xDC00], 2⟩ = Except.error ⟨[0x41], 2⟩ :=
  rfl

/-- C3: the claim says insert(idx, c) followed by remove(idx) restores the
prior content and returns c.  The 16-bit code violates this for every
scalar: after resizing to `len + k` the call
`copy_within(idx.., idx + slice.len())` copies `len + k - idx` elements to
destination `idx + k`, overrunning the buffer end by `k`, so even
`insert(0, 'A')` on an empty buffer panics (panic state: the resized buffer
`[0]`) before any remove can run. -/
theorem c3_insert_remove_roundtrip_bug :
    U16String.insert ⟨[], 0⟩ 0 0x41 = Except.error ⟨[0], 1⟩ :=
  rfl

/-- C4: the claim says insert_ustr(idx, s) splices s at idx and is fatal
only when idx > length.  The code violates this: after resizing to
`len + k` the call `copy_within(idx.., idx + string.len())` overruns the
buffer end by `k` for every non-empty s, so inserting `[7]` at index 1 of
`[1, 2]` panics (panic state: the resized buffer `[1, 2, 0]`) instead of
producing `[1, 7, 2]`. -/
theorem c4_insert_ustr_bug :
    insert_ustr ⟨[1, 2], 2⟩ 1 [7] = Except.error ⟨[1, 2, 0], 3⟩ :=
  rfl

/-- C6: from_ptr(p, len) returns an empty buffer when len = 0 even for a
null pointer, panics when len > 0 and p is null, and copies exactly the
first len units of a region valid for len reads. -/
theorem c6_from_ptr_spec (p : WidePtr) (len : Nat) :
    (len = 0 → from_ptr p len = some ⟨[], 0⟩) ∧
    (0 < len → p = WidePtr.null → from_ptr p len = none) ∧
    (∀ mem, p = WidePtr.valid mem → len ≤ mem.length →
      from_ptr p len = some ⟨mem.take len, len⟩) := by
  refine ⟨?_, ?_, ?_⟩
  · intro h
    simp [from_ptr, h]
  · intro h hp
    subst hp
    simp [from_ptr, Nat.pos_iff_ne_zero.mp h]
  · intro mem hp hlen
    subst hp
    by_cases h0 : len = 0
    · subst h0
      simp [from_ptr]
    · simp [from_ptr, h0, hlen]

/-- Closed witness for C6 at concrete inputs. -/
theorem c6_from_ptr_spec_witness :
    from_ptr (WidePtr.valid [5, 6, 7]) 2 = some ⟨[5, 6], 2⟩ ∧
    from_ptr WidePtr.null 3 = none ∧
    from_ptr WidePtr.null 0 = some ⟨[], 0⟩ := by
  refine ⟨?_, ?_, ?_⟩
  · exact Eq.trans
      ((c6_from_ptr_spec (WidePtr.valid [5, 6, 7]) 2).2.2 [5, 6, 7] rfl (by decide)) rfl
  · exact (c6_from_ptr_spec WidePtr.null 3).2.1 (by omega) rfl
  · exact (c6_from_ptr_spec WidePtr.null 0).1 rfl

/-- C7: popping a 16-bit buffer whose sole content is one low surrogate
returns that surrogate's raw value (not an error, not combined) and leaves
the buffer empty. -/
theorem c7_pop_sole_low_surrogate (x c : Nat)
    (h : is_utf16_low_surrogate x = true) :
    U16String.pop ⟨[x], c⟩ = Except.ok (some x, ⟨[], c⟩) := by
  have hs : is_utf16_surrogate x = true := surrogate_of_low h
  simp [U16String.pop, WVec.pop, hs, h]

/-- Closed witness for C7 at the low surrogate 0xDC00. -/
theorem c7_pop_sole_low_surrogate_witness :
    U16String.pop ⟨[0xDC00], 1⟩ = Except.ok (some 0xDC00, ⟨[], 1⟩) :=
  c7_pop_sole_low_surrogate 0xDC00 1 (by decide)

/-- C9: after reserve(n) the capacity is at least length + n (content
untouched); after shrink_to_fit() the capacity equals the length exactly
(content untouched). -/
theorem c9_capacity_contract (s : WVec) (n : Nat) :
    s.data.length + n ≤ (reserve s n).cap ∧
    (reserve s n).data = s.data ∧
    (shrink_to_fit s).cap = (shrink_to_fit s).data.length ∧
    (shrink_to_fit s).data = s.data :=
  ⟨Nat.le_max_right _ _, rfl, rfl, rfl⟩

/-- C10: split_off(at) is fatal exactly when at > length; for at ≤ length
the receiver keeps [0, at) with its capacity unchanged and the returned
buffer holds [at, length); in particular the boundary call
split_off(length) succeeds, returning an empty buffer and leaving the
receiver's content unchanged — contradicting the function's own doc
comment, which claims at == length panics. -/
theorem c10_split_off_boundary (s : WVec) (i : Nat) :
    (s.data.length < i → split_off s i = Except.error s) ∧
    (i ≤ s.data.length →
      split_off s i =
        Except.ok (⟨s.data.take i, s.cap⟩, ⟨s.data.drop i, s.data.length - i⟩)) ∧
    (i = s.data.length → split_off s i = Except.ok (s, ⟨[], 0⟩)) := by
  refine ⟨?_, ?_, ?_⟩
  · intro h
    simp [split_off, WVec.split_off, Nat.not_le.mpr h]
  · intro h
    simp [split_off, WVec.split_off, h]
  · intro h
    subst h
    simp [split_off, WVec.split_off]

/-- Closed witness for C10: interior split, boundary split at the length,
and the fatal out-of-range call one past it. -/
theorem c10_split_off_boundary_witness :
    split_off ⟨[4, 5], 7⟩ 1 = Except.ok (⟨[4], 7⟩, ⟨[5], 1⟩) ∧
    split_off ⟨[4, 5], 7⟩ 2 = Except.ok (⟨[4, 5], 7⟩, ⟨[], 0⟩) ∧
    split_off ⟨[4, 5], 7⟩ 3 = Except.error ⟨[4, 5], 7⟩ := by
  refine ⟨?_, ?_, ?_⟩
  · exact Eq.trans ((c10_split_off_boundary ⟨[4, 5], 7⟩ 1).2.1 (by decide)) rfl
  · exact (c10_split_off_boundary ⟨[4, 5], 7⟩ 2).2.2 rfl
  · exact (c10_split_off_boundary ⟨[4, 5], 7⟩ 3).1 (by decide)

/-- C5: remove(idx) on the 16-bit buffer is fatal whenever idx ≥ length
(with the pre-panic state untouched); when the unit at idx is a high
surrogate validly paired with the unit at idx+1, exactly those two units
are removed and the combined scalar by the standard surrogate-decode
formula is returned; in every other case exactly the single unit at idx is
removed and its raw value returned; all other units keep their place and
order. -/
theorem c5_u16_remove_cases (s : WVec) (idx : Nat) :
    (s.data.length ≤ idx → U16String.remove s idx = Except.error s) ∧
    (∀ u v, s.data.get? idx = some u → s.data.get? (idx + 1) = some v →
      is_utf16_high_surrogate u = true → is_utf16_low_surrogate v = true →
      U16String.remove s idx =
        Except.ok (0x10000 + (u - 0xD800) * 0x400 + (v - 0xDC00),
          ⟨s.data.take idx ++ s.data.drop (idx + 2), s.cap⟩)) ∧
    (∀ u, s.data.get? idx = some u → u < 0x10000 →
      ¬(is_utf16_high_surrogate u = true ∧
        ∃ v, s.data.get? (idx + 1) = some v ∧ is_utf16_low_surrogate v = true) →
      U16String.remove s idx =
        Except.ok (u, ⟨s.data.take idx ++ s.data.drop (idx + 1), s.cap⟩)) := by
  refine ⟨u16_remove_oob s idx, ?_, ?_⟩
  · intro u v hu hv hh hl
    have hlt2 : idx + 1 < s.data.length := get?_some_lt hv
    have hle : idx ≤ s.data.length := by omega
    have hb2 : idx + 2 ≤ s.data.length := by omega
    have hd1 := drop_eq_cons_of_get? hu
    have hd2 := drop_eq_cons_of_get? hv
    have hs : is_utf16_surrogate u = true := surrogate_of_high hh
    have hnl : ¬(0x10000 + (u - 0xD800) * 0x400 + (v - 0xDC00) < 0x10000) := by
      omega
    simp [U16String.remove, hle, hd1, hd2, decode_utf16_first, hs, hh, hl,
      len_utf16, hnl, WVec.drain, hb2]
  · intro u hu hb hnp
    have hlt : idx < s.data.length := get?_some_lt hu
    have hle : idx ≤ s.data.length := Nat.le_of_lt hlt
    have hdr : idx + 1 ≤ s.data.length := hlt
    have hd1 := drop_eq_cons_of_get? hu
    have hu' : s.data[idx]? = some u := by
      rw [← List.get?_eq_getElem?]
      exact hu
    by_cases hsu : is_utf16_surrogate u = true
    · by_cases hh : is_utf16_high_surrogate u = true
      · cases hv : s.data.get? (idx + 1) with
        | none =>
          have hd2 : s.data.drop (idx + 1) = [] :=
            List.drop_eq_nil_of_le (List.get?_eq_none.mp hv)
          simp [U16String.remove, hle, hd1, hd2, decode_utf16_first, hsu, hh,
            hu', WVec.drain, hdr]
        | some v =>
          cases hlv : is_utf16_low_surrogate v with
          | false =>
            have hd2 := drop_eq_cons_of_get? hv
            simp [U16String.remove, hle, hd1, hd2, decode_utf16_first, hsu,
              hh, hlv, hu', WVec.drain, hdr]
          | true => exact absurd ⟨hh, v, hv, hlv⟩ hnp
      · have hh' : is_utf16_high_surrogate u = false := by
          simpa using hh
        simp [U16String.remove, hle, hd1, decode_utf16_first, hsu, hh', hu',
          WVec.drain, hdr]
    · have hsu' : is_utf16_surrogate u = false := by
        simpa using hsu
      simp [U16String.remove, hle, hd1, decode_utf16_first, hsu', len_utf16,
        hb, WVec.drain, hdr]

/-- Closed witness for C5: removing at index 0 of a buffer starting with a
valid surrogate pair removes both units and returns the combined scalar. -/
theorem c5_u16_remove_cases_witness :
    U16String.remove ⟨[0xD83D, 0xDE00, 0x41], 3⟩ 0 =
      Except.ok (0x1F600, ⟨[0x41], 3⟩) :=
  Eq.trans
    ((c5_u16_remove_cases ⟨[0xD83D, 0xDE00, 0x41], 3⟩ 0).2.1 0xD83D 0xDE00
      rfl rfl (by decide) (by decide))
    rfl

/-- C8: every documented fatal precondition — insert and insert_ustr with
idx > length, remove with idx ≥ length (both widths), from_ptr with a null
pointer and nonzero length — aborts before any mutation: the panic-time
state carried by `error` is exactly the original buffer, content and
capacity included. -/
theorem c8_fatal_preconditions_leave_state (s : WVec) (idx len c : Nat)
    (t : List Nat) :
    (s.data.length < idx → U16String.insert s idx c = Except.error s) ∧
    (s.data.length < idx → insert_ustr s idx t = Except.error s) ∧
    (s.data.length ≤ idx → U16String.remove s idx = Except.error s) ∧
    (s.data.length < idx → U32String.insert s idx c = Except.error s) ∧
    (s.data.length ≤ idx → U32String.remove s idx = Except.error s) ∧
    (0 < len → from_ptr WidePtr.null len = none) := by
  refine ⟨?_, ?_, u16_remove_oob s idx, ?_, ?_, ?_⟩
  · intro h
    simp [U16String.insert, Nat.not_le.mpr h]
  · intro h
    simp [insert_ustr, Nat.not_le.mpr h]
  · intro h
    simp [U32String.insert, WVec.insert, Nat.not_le.mpr h]
  · intro h
    have h' : s.data[idx]? = none := by
      rw [← List.get?_eq_getElem?]
      exact List.get?_eq_none.mpr h
    simp [U32String.remove, WVec.remove, h']
  · intro h
    simp [from_ptr, Nat.pos_iff_ne_zero.mp h]

/-- Closed witness for C8: each fatal precondition exercised on a concrete
buffer, showing the original state at the abort. -/
theorem c8_fatal_preconditions_leave_state_witness :
    U16String.insert ⟨[1], 1⟩ 5 7 = Except.error ⟨[1], 1⟩ ∧
    insert_ustr ⟨[1], 1⟩ 5 [7] = Except.error ⟨[1], 1⟩ ∧
    U16String.remove ⟨[1], 1⟩ 1 = Except.error ⟨[1], 1⟩ ∧
    U32String.insert ⟨[1], 1⟩ 5 7 = Except.error ⟨[1], 1⟩ ∧
    U32String.remove ⟨[1], 1⟩ 1 = Except.error ⟨[1], 1⟩ ∧
    from_ptr WidePtr.null 1 = none := by
  have h := c8_fatal_preconditions_leave_state ⟨[1], 1⟩ 5 1 7 [7]
  refine ⟨h.1 (by decide), h.2.1 (by decide), ?_, h.2.2.2.1 (by decide),
    ?_, h.2.2.2.2.2 (by decide)⟩
  · have h1 := (c8_fatal_preconditions_leave_state ⟨[1], 1⟩ 1 1 7 [7]).2.2.1
    exact h1 (by decide)
  · have h2 := (c8_fatal_preconditions_leave_state ⟨[1], 1⟩ 1 1 7 [7]).2.2.2.2.1
    exact h2 (by decide)
